import Mathlib

/-!
Verification development for the news_search discovery-to-processing core
(files news_search/url_normalizer.py, database.py, search_module.py,
processor_worker.py).  Python strings are modeled as lists of characters
(type PyStr); percent decoding and encoding is modeled bytewise and is exact
for ASCII inputs.  The external collaborators (the SHA-256 hash from hashlib,
the discovery HTTP client, the AI content processor, and the PostgreSQL
driver) are modeled as explicit parameters or outcome-valued inputs, as
described at each definition.
-/

set_option maxRecDepth 20000
set_option linter.unusedVariables false

/-- Python strings, modeled as lists of characters. -/
abbrev PyStr := List Char

namespace UrlNorm

/-- Models str.lower for ASCII text. -/
def lowerL (s : PyStr) : PyStr := s.map Char.toLower

/-- Characters removed by str.strip (Python whitespace). -/
def pySpace (c : Char) : Bool :=
  c == ' ' || c == '\t' || c == '\n' || c == '\r' || c == '\x0b' || c == '\x0c'

/-- Models str.strip: removes whitespace at both ends. -/
def stripL (s : PyStr) : PyStr :=
  ((s.dropWhile pySpace).reverse.dropWhile pySpace).reverse

/-- The characters urllib.parse allows inside a URL scheme (scheme_chars). -/
def schemeChars : PyStr :=
  "abcdefghijklmnopqrstuvwxyzABCDEFGHIJKLMNOPQRSTUVWXYZ0123456789+-.".data

/-- Models the urlsplit input cleanup of Python 3.11: strip C0 control
characters and spaces from the left, then remove every tab, carriage return
and line feed. -/
def urlPre (url : PyStr) : PyStr :=
  (url.dropWhile (fun c => c.toNat ≤ 32)).filter
    (fun c => !(c == '\t' || c == '\r' || c == '\n'))

/-- Splits the first occurrence of a separator character: models
str.split(sep, 1) when the separator occurs, returning the two halves. -/
def splitFirst (sep : Char) (s : PyStr) : Option (PyStr × PyStr) :=
  match s.findIdx? (· == sep) with
  | some i => some (s.take i, s.drop (i + 1))
  | none => none

/-- Models the scheme-splitting step of urllib.parse.urlsplit in Python
3.11: if the first colon is at a positive index, the first character is an
ASCII letter and everything before the colon is a scheme character, the
scheme (lowercased) is split off. -/
def splitSchemeFrom (url : PyStr) : PyStr × PyStr :=
  match url.findIdx? (· == ':') with
  | some i =>
    if 0 < i then
      if (url.take 1).all Char.isAlpha &&
          (url.take i).all (fun c => schemeChars.contains c) then
        (lowerL (url.take i), url.drop (i + 1))
      else ([], url)
    else ([], url)
  | none => ([], url)

/-- Models _splitnetloc: the netloc extends to the first of the three
delimiters, or to the end of the string. -/
def splitNetloc (rest : PyStr) : PyStr × PyStr :=
  let j := rest.findIdx (fun c => c == '/' || c == '?' || c == '#')
  (rest.take j, rest.drop j)

/-- Result of urllib.parse.urlsplit. -/
structure SplitResult where
  scheme : PyStr
  netloc : PyStr
  path : PyStr
  query : PyStr
  fragment : PyStr
  deriving Repr, DecidableEq

/-- Models urllib.parse.urlsplit (with allow_fragments=True), ignoring the
ValueError raised for mismatched IPv6 brackets, which pyUrlsplitRaises
reports separately. -/
def pyUrlsplitRaw (url0 : PyStr) : SplitResult :=
  let sp := splitSchemeFrom (urlPre url0)
  let np :=
    if ['/', '/'].isPrefixOf sp.2 then splitNetloc (sp.2.drop 2) else ([], sp.2)
  let fp :=
    match splitFirst '#' np.2 with
    | some ab => ab
    | none => (np.2, [])
  let qp :=
    match splitFirst '?' fp.1 with
    | some ab => ab
    | none => (fp.1, [])
  ⟨sp.1, np.1, qp.1, qp.2, fp.2⟩

/-- Models the condition under which urlsplit raises ValueError (mismatched
IPv6 brackets in the netloc); callers in the source that wrap urlparse in a
try block treat this as the exception case. -/
def pyUrlsplitRaises (url0 : PyStr) : Bool :=
  let sp := splitSchemeFrom (urlPre url0)
  let netloc :=
    if ['/', '/'].isPrefixOf sp.2 then (splitNetloc (sp.2.drop 2)).1 else []
  (netloc.contains '[' && !netloc.contains ']') ||
    (netloc.contains ']' && !netloc.contains '[')

/-- The schemes for which urlparse splits path parameters (uses_params in
Python 3.11). -/
def usesParams : List PyStr :=
  [[], "ftp".data, "hdl".data, "prospero".data, "http".data, "imap".data,
   "https".data, "shttp".data, "rtsp".data, "rtsps".data, "rtspu".data,
   "sip".data, "sips".data, "mms".data, "sftp".data, "tel".data]

/-- The schemes that use a network location (uses_netloc in Python 3.11). -/
def usesNetloc : List PyStr :=
  [[], "ftp".data, "http".data, "gopher".data, "nntp".data, "telnet".data,
   "imap".data, "wais".data, "file".data, "mms".data, "https".data,
   "shttp".data, "snews".data, "prospero".data, "rtsp".data, "rtsps".data,
   "rtspu".data, "rsync".data, "svn".data, "svn+ssh".data, "sftp".data,
   "nfs".data, "git".data, "git+ssh".data, "ws".data, "wss".data]

/-- Index of the last character satisfying a predicate. -/
def rfindIdx (p : Char → Bool) (s : PyStr) : Option Nat :=
  match s.reverse.findIdx? p with
  | some j => some (s.length - 1 - j)
  | none => none

/-- Models _splitparams: the params component is everything after the first
semicolon of the last path segment. -/
def splitParams (u : PyStr) : PyStr × PyStr :=
  if u.contains '/' then
    let r := match rfindIdx (· == '/') u with | some k => k | none => 0
    match (u.drop r).findIdx? (· == ';') with
    | some j => (u.take (r + j), u.drop (r + j + 1))
    | none => (u, [])
  else
    match u.findIdx? (· == ';') with
    | some i => (u.take i, u.drop (i + 1))
    | none => (u, [])

/-- Result of urllib.parse.urlparse. -/
structure ParseResult where
  scheme : PyStr
  netloc : PyStr
  path : PyStr
  params : PyStr
  query : PyStr
  fragment : PyStr
  deriving Repr, DecidableEq

/-- Models urllib.parse.urlparse: urlsplit followed by params splitting for
the schemes in uses_params. -/
def pyUrlparse (url : PyStr) : ParseResult :=
  let s := pyUrlsplitRaw url
  if s.path.contains ';' && usesParams.contains s.scheme then
    let pp := splitParams s.path
    ⟨s.scheme, s.netloc, pp.1, pp.2, s.query, s.fragment⟩
  else
    ⟨s.scheme, s.netloc, s.path, [], s.query, s.fragment⟩

/-- Models urllib.parse.urlunsplit of Python 3.11: the double slash is
emitted when there is a netloc, or when the scheme uses a netloc and the
path does not already start with a double slash. -/
def pyUrlunsplit (scheme netloc path query fragment : PyStr) : PyStr :=
  let url :=
    if !netloc.isEmpty ||
        (!scheme.isEmpty && usesNetloc.contains scheme && path.take 2 != ['/', '/']) then
      let u := if !path.isEmpty && path.take 1 != ['/'] then '/' :: path else path
      '/' :: '/' :: (netloc ++ u)
    else path
  let url := if !scheme.isEmpty then scheme ++ ':' :: url else url
  let url := if !query.isEmpty then url ++ '?' :: query else url
  if !fragment.isEmpty then url ++ '#' :: fragment else url

/-- Models urllib.parse.urlunparse. -/
def pyUrlunparse (scheme netloc path params query fragment : PyStr) : PyStr :=
  let p := if !params.isEmpty then path ++ ';' :: params else path
  pyUrlunsplit scheme netloc p query fragment

/-- Value of an ASCII hex digit. -/
def hexVal (c : Char) : Option Nat :=
  if c.isDigit then some (c.toNat - '0'.toNat)
  else if 'a' ≤ c ∧ c ≤ 'f' then some (c.toNat - 'a'.toNat + 10)
  else if 'A' ≤ c ∧ c ≤ 'F' then some (c.toNat - 'A'.toNat + 10)
  else none

/-- Models urllib.parse.unquote bytewise: a percent sign followed by two hex
digits decodes to that byte; otherwise the percent sign is kept literally.
Exact for ASCII percent-encodings. -/
def pyUnquote : PyStr → PyStr
  | [] => []
  | '%' :: a :: b :: rest =>
    match hexVal a, hexVal b with
    | some x, some y => Char.ofNat (16 * x + y) :: pyUnquote rest
    | _, _ => '%' :: pyUnquote (a :: b :: rest)
  | c :: rest => c :: pyUnquote rest

/-- Models urllib.parse.unquote_plus: plus signs become spaces, then
percent-decoding. -/
def pyUnquotePlus (s : PyStr) : PyStr :=
  pyUnquote (s.map (fun c => if c == '+' then ' ' else c))

/-- Models urllib.parse.parse_qsl with default arguments
(keep_blank_values=False): fields are split on ampersands; empty fields,
fields without an equals sign, and fields with an empty value are dropped;
names and values are unquote_plus-decoded. -/
def parseQsl (qs : PyStr) : List (PyStr × PyStr) :=
  (qs.splitOn '&').filterMap (fun nv =>
    if nv.isEmpty then none
    else
      match splitFirst '=' nv with
      | none => none
      | some p => if p.2.isEmpty then none
                  else some (pyUnquotePlus p.1, pyUnquotePlus p.2))

/-- Appends one name-value pair to an insertion-ordered dictionary of lists,
as parse_qs does with a Python dict. -/
def addToDict (d : List (PyStr × List PyStr)) (n : PyStr) (v : PyStr) :
    List (PyStr × List PyStr) :=
  match d with
  | [] => [(n, [v])]
  | kv :: rest =>
    if kv.1 == n then (kv.1, kv.2 ++ [v]) :: rest
    else kv :: addToDict rest n v

/-- Whether a dictionary of query values binds a name (the membership test
addToDict performs). -/
def hasKey (d : List (PyStr × List PyStr)) (n : PyStr) : Bool :=
  d.any (fun kv => kv.1 == n)

/-- Models urllib.parse.parse_qs: parse_qsl aggregated into an
insertion-ordered dictionary mapping each name to its list of values. -/
def parseQs (qs : PyStr) : List (PyStr × List PyStr) :=
  (parseQsl qs).foldl (fun d p => addToDict d p.1 p.2) []

/-- The characters urllib.parse.quote never encodes (letters, digits, and
underscore, period, hyphen, tilde). -/
def alwaysSafe (c : Char) : Bool :=
  c.isAlpha || c.isDigit || c == '_' || c == '.' || c == '-' || c == '~'

/-- Uppercase hex digit of a value below sixteen. -/
def hexDigitU (n : Nat) : Char :=
  if n < 10 then Char.ofNat ('0'.toNat + n) else Char.ofNat ('A'.toNat + n - 10)

/-- UTF-8 encoding of a code point, as a list of byte values. -/
def utf8Bytes (n : Nat) : List Nat :=
  if n < 128 then [n]
  else if n < 2048 then [192 + n / 64, 128 + n % 64]
  else if n < 65536 then [224 + n / 4096, 128 + n / 64 % 64, 128 + n % 64]
  else [240 + n / 262144, 128 + n / 4096 % 64, 128 + n / 64 % 64, 128 + n % 64]

/-- A percent-encoded byte, with uppercase hex digits as quote produces. -/
def pctEncodeByte (b : Nat) : PyStr := ['%', hexDigitU (b / 16), hexDigitU (b % 16)]

/-- Models urllib.parse.quote of one character given extra safe characters. -/
def pyQuoteChar (safe : PyStr) (c : Char) : PyStr :=
  if alwaysSafe c || safe.contains c then [c]
  else ((utf8Bytes c.toNat).map pctEncodeByte).flatten

/-- Models urllib.parse.quote with a given safe set. -/
def pyQuote (safe : PyStr) (s : PyStr) : PyStr := (s.map (pyQuoteChar safe)).flatten

/-- Models urllib.parse.quote_plus with safe equal to the empty string: if
the string contains a space it is quoted with space safe and spaces are then
replaced by plus signs, otherwise it is quoted directly. -/
def pyQuotePlus (s : PyStr) : PyStr :=
  if s.contains ' ' then
    (pyQuote [' '] s).map (fun c => if c == ' ' then '+' else c)
  else pyQuote [] s

/-- Models urllib.parse.urlencode with doseq=True applied to a parse_qs
dictionary: each value of each name produces one name=value field, fields
joined by ampersands. -/
def pyUrlencodeDoseq (d : List (PyStr × List PyStr)) : PyStr :=
  List.intercalate ['&']
    ((d.map (fun kv => kv.2.map (fun v => pyQuotePlus kv.1 ++ '=' :: pyQuotePlus v))).flatten)

/-- The tracking query parameters removed by normalize_url. -/
def trackingParams : List PyStr :=
  ["utm_source".data, "utm_medium".data, "utm_campaign".data, "utm_term".data,
   "utm_content".data, "fbclid".data, "gclid".data, "msclkid".data,
   "mc_cid".data, "mc_eid".data, "_ga".data, "_gl".data, "ref".data,
   "source".data]

/-- Models str.rstrip applied with a slash argument: removes all trailing
slashes. -/
def rstripSlashes (p : PyStr) : PyStr := (p.reverse.dropWhile (· == '/')).reverse

/-- Embedding of normalize_url from url_normalizer.py on character lists. -/
def normalizeUrlCore (url : PyStr) : PyStr :=
  let url := stripL url
  let p := pyUrlparse url
  let scheme := if !p.scheme.isEmpty then lowerL p.scheme else "https".data
  let netloc0 := lowerL p.netloc
  let netloc := if "www.".data.isPrefixOf netloc0 then netloc0.drop 4 else netloc0
  let queryParams := parseQs p.query
  let filtered := queryParams.filter (fun kv => !trackingParams.contains kv.1)
  let query := if !filtered.isEmpty then pyUrlencodeDoseq filtered else []
  let fragment : PyStr := []
  let path := if p.path == "/".data then p.path else rstripSlashes p.path
  pyUrlunparse scheme netloc path p.params query fragment

/-- Embedding of normalize_url from url_normalizer.py. -/
def normalize_url (url : String) : String := String.mk (normalizeUrlCore url.data)

/-- Embedding of is_valid_url from url_normalizer.py: true iff urlparse does
not raise and both scheme and netloc are nonempty. -/
def is_valid_url (url : String) : Bool :=
  if pyUrlsplitRaises url.data then false
  else
    let r := pyUrlparse url.data
    !r.scheme.isEmpty && !r.netloc.isEmpty

/-- Models str.replace applied to the pattern string www. with the empty
replacement: scanning left to right, an occurrence of the four pattern
characters is dropped and scanning resumes after it, otherwise the head
character is kept. -/
def removeWww : PyStr → PyStr
  | 'w' :: 'w' :: 'w' :: '.' :: rest => removeWww rest
  | c :: rest => c :: removeWww rest
  | [] => []

/-- Embedding of extract_domain from url_normalizer.py: the lowercased
netloc with the substring www. removed by str.replace; the empty string if
urlparse raises. -/
def extract_domain (url : String) : String :=
  if pyUrlsplitRaises url.data then ""
  else String.mk (removeWww (lowerL (pyUrlparse url.data).netloc))

end UrlNorm

namespace Store

/-- A row of the news_links table (database.py init_tables): processedAt
records whether processed_at has been stamped; timestamps themselves are
timing only and are not modeled. -/
structure LinkRec where
  id : Nat
  url : String
  urlHash : String
  sourceTask : String
  status : String
  errorMessage : Option String
  processedAt : Bool
  deriving Repr, DecidableEq

/-- A row of the processed_content table (link_id is unique). -/
structure ContentRec where
  linkId : Nat
  title : Option String
  content : Option String
  translatedContent : Option String
  metadata : Option String
  deriving Repr, DecidableEq

/-- A row of the query_tasks table; lastRunStamped records whether last_run
has ever been set. -/
structure TaskRec where
  taskName : String
  promptTemplate : String
  isActive : Bool
  totalRuns : Nat
  totalLinksFound : Nat
  lastRunStamped : Bool
  deriving Repr, DecidableEq

/-- The persistent state held by the Database class (PostgreSQL tables),
with rows in insertion order and nextId the news_links id sequence.
statusLog is observational instrumentation: the chronological list of
update_link_status writes, used to state transition properties. -/
structure DBState where
  links : List LinkRec
  contents : List ContentRec
  tasks : List TaskRec
  nextId : Nat
  statusLog : List (Nat × String)
  deriving Repr, DecidableEq

/-- The freshly initialized store: empty tables, id sequence at one. -/
def dbInit : DBState := ⟨[], [], [], 1, []⟩

/-- Embedding of Database.insert_news_link: INSERT ... ON CONFLICT
(url_hash) DO NOTHING RETURNING id.  New links are created with the status
column default pending. -/
def insert_news_link (db : DBState) (url urlHash sourceTask : String) :
    Option Nat × DBState :=
  if db.links.any (fun l => l.urlHash == urlHash) then (none, db)
  else
    (some db.nextId,
      { db with
        links := db.links ++ [⟨db.nextId, url, urlHash, sourceTask, "pending", none, false⟩],
        nextId := db.nextId + 1 })

/-- Embedding of Database.url_exists. -/
def url_exists (db : DBState) (urlHash : String) : Bool :=
  db.links.any (fun l => l.urlHash == urlHash)

/-- Embedding of Database.get_pending_links: pending links ordered by
discovered_at descending (most recently inserted first), capped at limit. -/
def get_pending_links (db : DBState) (limit : Nat) : List LinkRec :=
  ((db.links.filter (fun l => l.status == "pending")).reverse).take limit

/-- Embedding of Database.get_links_by_ids. -/
def get_links_by_ids (db : DBState) (ids : List Nat) : List LinkRec :=
  db.links.filter (fun l => ids.contains l.id)

/-- Embedding of Database.update_link_status: sets status and
error_message on the matching row; a completed or failed status also stamps
processed_at.  The write is appended to the observational status log. -/
def update_link_status (db : DBState) (linkId : Nat) (status : String)
    (errorMessage : Option String) : DBState :=
  { db with
    links := db.links.map (fun l =>
      if l.id == linkId then
        { l with
          status := status
          errorMessage := errorMessage
          processedAt :=
            if status == "completed" || status == "failed" then true
            else l.processedAt }
      else l),
    statusLog := db.statusLog ++ [(linkId, status)] }

/-- Embedding of Database.save_processed_content: INSERT ... ON CONFLICT
(link_id) DO UPDATE, an upsert keyed by link id.  The tags, country and
news_date fields are not passed by the processor worker and are folded into
the modeled fields. -/
def save_processed_content (db : DBState) (linkId : Nat)
    (title content translatedContent metadata : Option String) : DBState :=
  if db.contents.any (fun c => c.linkId == linkId) then
    { db with
      contents := db.contents.map (fun c =>
        if c.linkId == linkId then ⟨linkId, title, content, translatedContent, metadata⟩
        else c) }
  else
    { db with contents := db.contents ++ [⟨linkId, title, content, translatedContent, metadata⟩] }

/-- Embedding of Database.create_query_task (the unique constraint on
task_name is not modeled; no claim depends on it). -/
def create_query_task (db : DBState) (taskName promptTemplate : String) : DBState :=
  { db with tasks := db.tasks ++ [⟨taskName, promptTemplate, true, 0, 0, false⟩] }

/-- Embedding of Database.get_query_task. -/
def get_query_task (db : DBState) (taskName : String) : Option TaskRec :=
  db.tasks.find? (fun t => t.taskName == taskName)

/-- Embedding of Database.update_task_run_stats: stamps last_run and
increments the run and links-found counters of the named task. -/
def update_task_run_stats (db : DBState) (taskName : String) (linksFound : Nat) :
    DBState :=
  { db with
    tasks := db.tasks.map (fun t =>
      if t.taskName == taskName then
        { t with
          totalRuns := t.totalRuns + 1
          totalLinksFound := t.totalLinksFound + linksFound
          lastRunStamped := true }
      else t) }

end Store

namespace Worker

open Store

/-- The structured payload the external ai_processor may return from
process(url), as read by _process_single_link. -/
structure AIResult where
  success : Bool
  title : Option String
  content : Option String
  translatedContent : Option String
  metadata : Option String
  error : Option String
  deriving Repr, DecidableEq

/-- One observed call of the external content processor: it either raised
an exception carrying a message, or returned a value, which is either None
or a structured result. -/
inductive AIOutcome where
  | raised (msg : String)
  | returned (result : Option AIResult)
  deriving Repr, DecidableEq

/-- The ai_processor collaborator of ProcessorWorker: none models a worker
constructed without an ai_processor (the mock path); some f gives the
outcome of process for the link with the given id at the given one-based
attempt number. -/
def AIProc : Type := Option (Nat → Nat → AIOutcome)

/-- MAX_RETRIES from config.py. -/
def MAX_RETRIES : Nat := 2

/-- MAX_CONCURRENT_DOMAINS from config.py. -/
def MAX_CONCURRENT_DOMAINS : Nat := 3

/-- SAME_DOMAIN_DELAY from config.py (seconds; timing is not modeled). -/
def SAME_DOMAIN_DELAY : Nat := 3

/-- Result of the retry loop of _process_single_link: the boolean the
method returns, the number of calls made to the content processor
(observational), and the resulting store state. -/
structure SingleResult where
  success : Bool
  calls : Nat
  db : DBState
  deriving Repr, DecidableEq

/-- Embedding of the retry loop of ProcessorWorker._process_single_link
(for attempt in range(1, MAX_RETRIES + 1)), with the retry cap maxR a
parameter standing for MAX_RETRIES.  A successful structured result saves
the processed content and marks the link completed, returning True; a
returned None or unsuccessful result only consumes the attempt; an
exception on the final attempt marks the link failed with the error message
and returns False; earlier exceptions sleep (timing not modeled) and
retry.  Falling off the loop returns False with no store write.  With no
ai_processor the mock path marks the link completed and returns True. -/
def processAttempts (aiProc : AIProc) (maxR : Nat) (linkId : Nat) :
    Nat → Nat → DBState → SingleResult
  | 0, _, db => ⟨false, 0, db⟩
  | remaining + 1, attempt, db =>
    match aiProc with
    | none => ⟨true, 0, update_link_status db linkId "completed" none⟩
    | some proc =>
      match proc linkId attempt with
      | .returned (some res) =>
        if res.success then
          let db1 := save_processed_content db linkId res.title res.content
            res.translatedContent res.metadata
          ⟨true, 1, update_link_status db1 linkId "completed" none⟩
        else
          let r := processAttempts aiProc maxR linkId remaining (attempt + 1) db
          ⟨r.success, r.calls + 1, r.db⟩
      | .returned none =>
        let r := processAttempts aiProc maxR linkId remaining (attempt + 1) db
        ⟨r.success, r.calls + 1, r.db⟩
      | .raised e =>
        if attempt == maxR then ⟨false, 1, update_link_status db linkId "failed" (some e)⟩
        else
          let r := processAttempts aiProc maxR linkId remaining (attempt + 1) db
          ⟨r.success, r.calls + 1, r.db⟩

/-- Embedding of ProcessorWorker._process_single_link: the loop runs the
attempt counter from one while iterations remain; range(1, MAX_RETRIES + 1)
yields maxR iterations. -/
def processSingleLink (aiProc : AIProc) (maxR : Nat) (link : LinkRec)
    (db : DBState) : SingleResult :=
  processAttempts aiProc maxR link.id maxR 1 db

/-- The per-domain statistics dictionary built by _process_domain. -/
structure DomainStats where
  total : Nat
  success : Nat
  failed : Nat
  skipped : Nat
  deriving Repr, DecidableEq

/-- The per-link loop of ProcessorWorker._process_domain: each link is set
to processing and then handed to _process_single_link; each link increments
the success or the failed counter.  The same-domain rate-limit wait is
timing only and is not modeled. -/
def processDomainLoop (aiProc : AIProc) (maxR : Nat) (links : List LinkRec)
    (succ fail : Nat) (db : DBState) : (Nat × Nat) × DBState :=
  match links with
  | [] => ((succ, fail), db)
  | link :: rest =>
    let db1 := update_link_status db link.id "processing" none
    let r := processSingleLink aiProc maxR link db1
    if r.success then processDomainLoop aiProc maxR rest (succ + 1) fail r.db
    else processDomainLoop aiProc maxR rest succ (fail + 1) r.db

/-- Embedding of ProcessorWorker._process_domain. -/
def processDomain (aiProc : AIProc) (maxR : Nat) (links : List LinkRec)
    (db : DBState) : DomainStats × DBState :=
  let r := processDomainLoop aiProc maxR links 0 0 db
  (⟨links.length, r.1.1, r.1.2, 0⟩, r.2)

/-- The aggregate statistics dictionary built by _process_domains. -/
structure Stats where
  total : Nat
  success : Nat
  failed : Nat
  skipped : Nat
  byDomain : List (String × DomainStats)
  deriving Repr, DecidableEq

/-- The zero aggregate the loops start from. -/
def statsInit : Stats := ⟨0, 0, 0, 0, []⟩

/-- Embedding of the result-collection loop of
ProcessorWorker._process_domains: for each submitted domain,
future.result() either returns that domain statistics record or re-raises
an unhandled exception out of the partition (modeled by the Except input;
in the source such an exception can only come from a State Store call,
since _process_single_link catches processor exceptions).  On an exception
the loop prints and continues; nothing is added to the aggregate. -/
def collectLoop (st : Stats) (outcomes : List (String × Except String DomainStats)) :
    Stats :=
  match outcomes with
  | [] => st
  | o :: rest =>
    match o.2 with
    | .ok ds =>
      collectLoop
        { total := st.total + ds.total
          success := st.success + ds.success
          failed := st.failed + ds.failed
          skipped := st.skipped + ds.skipped
          byDomain := st.byDomain ++ [(o.1, ds)] } rest
    | .error _ => collectLoop st rest

/-- Embedding of the whole result-collection loop starting from the zero
aggregate. -/
def collectDomainResults (outcomes : List (String × Except String DomainStats)) :
    Stats :=
  collectLoop statsInit outcomes

/-- The per-domain entries of the outcomes whose partition completed
without an unhandled exception: the characterization the amended claims
use for what the collection loop keeps. -/
def okEntries (outcomes : List (String × Except String DomainStats)) :
    List (String × DomainStats) :=
  outcomes.filterMap (fun o =>
    match o.2 with
    | .ok ds => some (o.1, ds)
    | .error _ => none)

/-- Embedding of ProcessorWorker._process_domains in the run where no
partition raises: the thread pool (bounded by MAX_CONCURRENT_DOMAINS) is
modeled by processing the domain partitions sequentially; each partition is
handled by a single worker in the source and partitions touch disjoint
links, so per-link effects do not depend on the interleaving. -/
def processDomainsLoop (aiProc : AIProc) (maxR : Nat)
    (groups : List (String × List LinkRec))
    (acc : List (String × Except String DomainStats)) (db : DBState) :
    List (String × Except String DomainStats) × DBState :=
  match groups with
  | [] => (acc, db)
  | g :: rest =>
    let r := processDomain aiProc maxR g.2 db
    processDomainsLoop aiProc maxR rest (acc ++ [(g.1, Except.ok r.1)]) r.2

/-- Embedding of ProcessorWorker._process_domains in a run where no
partition raises. -/
def processDomains (aiProc : AIProc) (maxR : Nat)
    (groups : List (String × List LinkRec)) (db : DBState) : Stats × DBState :=
  let run := processDomainsLoop aiProc maxR groups [] db
  (collectDomainResults run.1, run.2)

/-- Appends a link under its domain key, creating the key at the end on
first sight, as a defaultdict(list) does. -/
def addToGroups (groups : List (String × List LinkRec)) (d : String)
    (link : LinkRec) : List (String × List LinkRec) :=
  match groups with
  | [] => [(d, [link])]
  | g :: rest =>
    if g.1 == d then (g.1, g.2 ++ [link]) :: rest
    else g :: addToGroups rest d link

/-- Embedding of ProcessorWorker._group_by_domain. -/
def groupByDomain (links : List LinkRec) : List (String × List LinkRec) :=
  links.foldl (fun gs l => addToGroups gs (UrlNorm.extract_domain l.url) l) []

/-- Embedding of ProcessorWorker.process_pending_links. -/
def process_pending_links (aiProc : AIProc) (maxR : Nat) (limit : Nat)
    (db : DBState) : Stats × DBState :=
  let pending := get_pending_links db limit
  if pending.isEmpty then (statsInit, db)
  else processDomains aiProc maxR (groupByDomain pending) db

/-- Embedding of ProcessorWorker.process_specific_links. -/
def process_specific_links (aiProc : AIProc) (maxR : Nat) (ids : List Nat)
    (db : DBState) : Stats × DBState :=
  let links := get_links_by_ids db ids
  if links.isEmpty then (statsInit, db)
  else processDomains aiProc maxR (groupByDomain links) db

end Worker

namespace Search

open Store

/-- One entry of the urls list built by _process_urls for a newly
registered link. -/
structure UrlEntry where
  id : Nat
  url : String
  originalUrl : String
  deriving Repr, DecidableEq

/-- The dictionary returned by NewsSearchModule._process_urls. -/
structure ProcessUrlsResult where
  newLinks : Nat
  duplicates : Nat
  invalid : Nat
  urls : List UrlEntry
  deriving Repr, DecidableEq

/-- Embedding of NewsSearchModule._process_urls.  The parameter h stands
for database.hash_url (SHA-256 hex digest from the external hashlib
library); the theorems below hold for an arbitrary hash function and state
explicitly any hash inequality they need. -/
def processUrlsLoop (h : String → String) (taskName : String)
    (urls : List String) (acc : ProcessUrlsResult) (db : DBState) :
    ProcessUrlsResult × DBState :=
  match urls with
  | [] => (acc, db)
  | url :: rest =>
    if !UrlNorm.is_valid_url url then
      processUrlsLoop h taskName rest { acc with invalid := acc.invalid + 1 } db
    else
      let normalizedUrl := UrlNorm.normalize_url url
      let urlHashValue := h normalizedUrl
      if url_exists db urlHashValue then
        processUrlsLoop h taskName rest { acc with duplicates := acc.duplicates + 1 } db
      else
        let r := insert_news_link db normalizedUrl urlHashValue taskName
        match r.1 with
        | some linkId =>
          processUrlsLoop h taskName rest
            { acc with
              newLinks := acc.newLinks + 1
              urls := acc.urls ++ [⟨linkId, normalizedUrl, url⟩] } r.2
        | none => processUrlsLoop h taskName rest acc r.2

/-- Embedding of the whole _process_urls loop starting from zero counters. -/
def process_urls (h : String → String) (urls : List String) (taskName : String)
    (db : DBState) : ProcessUrlsResult × DBState :=
  processUrlsLoop h taskName urls ⟨0, 0, 0, []⟩ db

/-- The result dictionary of execute_search and run_task; the failure
shapes of the source (dictionaries with only success, error and task_name)
are modeled with zero and empty defaults for the remaining fields. -/
structure SearchResult where
  success : Bool
  error : Option String
  taskName : String
  totalFound : Nat
  newLinks : Nat
  duplicates : Nat
  invalid : Nat
  urls : List UrlEntry
  processing : Option Worker.Stats
  deriving Repr, DecidableEq

/-- AUTO_PROCESS_AFTER_SEARCH from config.py. -/
def AUTO_PROCESS_AFTER_SEARCH : Bool := true

/-- Embedding of NewsSearchModule.execute_search: searchRes is the value
returned by the external Discovery Client for the prompt (none models a
search failure), worker the optional processor worker carrying its optional
ai_processor, maxR the MAX_RETRIES configuration. -/
def execute_search (h : String → String) (searchRes : Option (List String))
    (worker : Option Worker.AIProc) (maxR : Nat) (prompt taskName : String)
    (db : DBState) : SearchResult × DBState :=
  match searchRes with
  | none => (⟨false, some "Search failed", taskName, 0, 0, 0, 0, [], none⟩, db)
  | some urls =>
    let pr := process_urls h urls taskName db
    let db1 := update_task_run_stats pr.2 taskName pr.1.newLinks
    let base : SearchResult :=
      ⟨true, none, taskName, urls.length, pr.1.newLinks, pr.1.duplicates,
        pr.1.invalid, pr.1.urls, none⟩
    match worker with
    | some aiProc =>
      if AUTO_PROCESS_AFTER_SEARCH && 0 < pr.1.newLinks then
        let newLinkIds := pr.1.urls.map (fun u => u.id)
        let ps := Worker.process_specific_links aiProc maxR newLinkIds db1
        ({ base with processing := some ps.1 }, ps.2)
      else (base, db1)
    | none => (base, db1)

/-- Embedding of NewsSearchModule.run_task (the failure messages carry the
task name inline rather than quoted). -/
def run_task (h : String → String) (searchRes : Option (List String))
    (worker : Option Worker.AIProc) (maxR : Nat) (taskName : String)
    (db : DBState) : SearchResult × DBState :=
  match get_query_task db taskName with
  | none =>
    (⟨false, some ("Task " ++ taskName ++ " not found"), taskName, 0, 0, 0, 0, [], none⟩, db)
  | some t =>
    if !t.isActive then
      (⟨false, some ("Task " ++ taskName ++ " is not active"), taskName, 0, 0, 0, 0, [], none⟩, db)
    else execute_search h searchRes worker maxR t.promptTemplate taskName db

end Search

namespace Traces

open Store

/-- The operations this core performs against the store: a task run by the
Orchestrator (run_task, which includes execute_search and optional
auto-processing), the two Processing Engine entry points, and the operator
action that creates a query task. -/
inductive CoreOp where
  | runTask (h : String → String) (searchRes : Option (List String))
      (worker : Option Worker.AIProc) (maxR : Nat) (taskName : String)
  | processPending (aiProc : Worker.AIProc) (maxR limit : Nat)
  | processSpecific (aiProc : Worker.AIProc) (maxR : Nat) (ids : List Nat)
  | createTask (taskName promptTemplate : String)

/-- Effect of one core operation on the store. -/
def applyOp (op : CoreOp) (db : DBState) : DBState :=
  match op with
  | .runTask h searchRes worker maxR taskName =>
    (Search.run_task h searchRes worker maxR taskName db).2
  | .processPending aiProc maxR limit =>
    (Worker.process_pending_links aiProc maxR limit db).2
  | .processSpecific aiProc maxR ids =>
    (Worker.process_specific_links aiProc maxR ids db).2
  | .createTask taskName promptTemplate =>
    create_query_task db taskName promptTemplate

/-- One step of the core: some operation was executed. -/
def Step (a b : DBState) : Prop := ∃ op, b = applyOp op a

/-- The store states reachable from the fresh store by core operations. -/
def Reachable (db : DBState) : Prop := Relation.ReflTransGen Step dbInit db

/-- The chronological status writes recorded for a link id in a status
log. -/
def writesIn (log : List (Nat × String)) (id : Nat) : List String :=
  (log.filter (fun e => e.1 == id)).map (fun e => e.2)

/-- The status history of a link id: the implicit pending of the freshly
inserted row followed by the chronological status writes for that id. -/
def histOf (db : DBState) (id : Nat) : List String :=
  "pending" :: writesIn db.statusLog id

/-- The status a link id last had according to the log (pending if it was
never written). -/
def lastStatusOf (db : DBState) (id : Nat) : String :=
  (writesIn db.statusLog id).getLastD "pending"

/-- The transitions that actually occur in the code (the amended claim):
every status write is processing, completed or failed - never pending -
and a write of completed or failed happens only while the link is in
processing. -/
def allowedPair (a b : String) : Bool :=
  b == "processing" || ((b == "completed" || b == "failed") && a == "processing")

/-- Checks that every write in the list is allowed, each against the status
it overwrites, starting from prev. -/
def goodWrites (prev : String) : List String → Bool
  | [] => true
  | b :: rest => allowedPair prev b && goodWrites b rest

/-- Checks every consecutive pair of a status history. -/
def goodHist : List String → Bool
  | [] => true
  | a :: rest => goodWrites a rest

/-- The strict transition chain asserted by the original claim: pending to
processing and processing to completed or failed, nothing else. -/
def chainPair (a b : String) : Bool :=
  (a == "pending" && b == "processing") ||
    (a == "processing" && (b == "completed" || b == "failed"))

/-- Checks every consecutive pair of a status history against the strict
chain. -/
def chainHist : List String → Bool
  | a :: b :: rest => chainPair a b && chainHist (b :: rest)
  | _ => true

/-- The good-log invariant: every link id has an allowed status history. -/
def GoodLog (db : DBState) : Prop :=
  ∀ id : Nat, goodWrites "pending" (writesIn db.statusLog id) = true

end Traces

namespace UrlNorm

/-- The serialization the specification describes for surviving query
parameters: every surviving name-value pair in its original relative order,
quoted the way urlencode quotes. -/
def serializeInOrder (pairs : List (PyStr × PyStr)) : PyStr :=
  List.intercalate ['&']
    (pairs.map (fun kv => pyQuotePlus kv.1 ++ '=' :: pyQuotePlus kv.2))

/-- Strips one leading www. label if present: the operation the
specification ascribes to domain extraction. -/
def stripLeadingWww (s : PyStr) : PyStr :=
  if "www.".data.isPrefixOf s then s.drop 4 else s

/-- Whether the string contains the substring www. anywhere. -/
def hasWww (s : PyStr) : Bool :=
  match s with
  | [] => false
  | c :: rest => "www.".data.isPrefixOf (c :: rest) || hasWww rest

end UrlNorm

namespace UrlNorm

/-- Claim C5: normalize applied to HTTP://WWW.Example.com/Path/?utm_source=x&id=7#frag
returns exactly http://example.com/Path?id=7 - the tracking parameter and
the fragment are removed, the scheme and the host are lowercased, the
leading www. is stripped, the trailing slash of the non-root path is
removed, and the case of the path is preserved. -/
theorem normalize_example_url :
    normalize_url "HTTP://WWW.Example.com/Path/?utm_source=x&id=7#frag" =
      "http://example.com/Path?id=7" := by
  decide

end UrlNorm

namespace UrlNorm

/-- A string with no occurrence of www. is unchanged by removeWww. -/
theorem removeWww_of_not_hasWww : ∀ s : PyStr, hasWww s = false → removeWww s = s := by
  intro s
  induction s using removeWww.induct with
  | case1 rest ih =>
    intro hw
    rw [hasWww] at hw
    simp [List.isPrefixOf] at hw
  | case2 c rest hne ih =>
    intro hw
    rw [hasWww] at hw
    simp only [Bool.or_eq_false_iff] at hw
    rw [removeWww, ih hw.2]
    intro r1 hc hr
    subst hc
    subst hr
    simp [List.isPrefixOf] at hw
  | case3 =>
    intro _
    rfl

/-- When the string has no occurrence of www. beyond an optional leading
one, removeWww coincides with stripping a leading www. label. -/
theorem removeWww_eq_stripLeading (s : PyStr)
    (hw : hasWww (stripLeadingWww s) = false) : removeWww s = stripLeadingWww s := by
  unfold stripLeadingWww at *
  by_cases hp : "www.".data.isPrefixOf s = true
  · rw [if_pos hp] at hw ⊢
    have hpre : "www.".data <+: s := (List.isPrefixOf_iff_prefix).mp hp
    obtain ⟨t, ht⟩ := hpre
    subst ht
    simp only [List.drop_append_of_le_length, List.drop_length] at hw ⊢
    rw [show ("www.".data ++ t) = 'w' :: 'w' :: 'w' :: '.' :: t from rfl, removeWww]
    simpa using removeWww_of_not_hasWww t (by simpa using hw)
  · rw [if_neg hp] at hw ⊢
    exact removeWww_of_not_hasWww s hw

end UrlNorm

namespace UrlNorm

/-- Claim C7 counterexample: on http://news.www.example.com/x the code
returns news.example.com - the embedded www. label is removed as well -
whereas the host with only a leading www. label stripped would be
news.www.example.com, so domainOf does alter parts of the host other than
a leading www. label. -/
theorem extract_domain_counterexample :
    extract_domain "http://news.www.example.com/x" = "news.example.com" ∧
    extract_domain "http://news.www.example.com/x" ≠
      String.mk (stripLeadingWww
        (lowerL (pyUrlparse "http://news.www.example.com/x".data).netloc)) := by
  constructor
  · decide
  · decide

/-- Claim C7 (amended): extract_domain returns the lowercased netloc with
every non-overlapping occurrence of the substring www. removed, left to
right; whenever the lowercased netloc contains no occurrence of www. other
than an optional leading one (and parsing does not raise), this equals the
netloc with a leading www. label stripped. -/
theorem extract_domain_strips_leading_www (url : String)
    (hra : pyUrlsplitRaises url.data = false)
    (hw : hasWww (stripLeadingWww (lowerL (pyUrlparse url.data).netloc)) = false) :
    extract_domain url =
      String.mk (stripLeadingWww (lowerL (pyUrlparse url.data).netloc)) := by
  unfold extract_domain
  rw [if_neg (by simp [hra]), removeWww_eq_stripLeading _ hw]

/-- Witness for the amended claim C7 at a concrete URL with a leading
www. label. -/
theorem extract_domain_strips_leading_www_witness :
    pyUrlsplitRaises "http://www.example.com/x".data = false ∧
    hasWww (stripLeadingWww
      (lowerL (pyUrlparse "http://www.example.com/x".data).netloc)) = false ∧
    extract_domain "http://www.example.com/x" =
      String.mk (stripLeadingWww
        (lowerL (pyUrlparse "http://www.example.com/x".data).netloc)) :=
  ⟨by decide, by decide,
    extract_domain_strips_leading_www "http://www.example.com/x" (by decide) (by decide)⟩

end UrlNorm

namespace Worker

/-- The collection loop keeps exactly the ok outcomes: the aggregate adds
the componentwise sums over okEntries and appends okEntries to the
per-domain dictionary; error outcomes contribute nothing. -/
theorem collectLoop_spec (outcomes : List (String × Except String DomainStats)) :
    ∀ st : Stats, collectLoop st outcomes =
      ⟨st.total + ((okEntries outcomes).map (fun e => e.2.total)).sum,
       st.success + ((okEntries outcomes).map (fun e => e.2.success)).sum,
       st.failed + ((okEntries outcomes).map (fun e => e.2.failed)).sum,
       st.skipped + ((okEntries outcomes).map (fun e => e.2.skipped)).sum,
       st.byDomain ++ okEntries outcomes⟩ := by
  induction outcomes with
  | nil => intro st; simp [collectLoop, okEntries]
  | cons o rest ih =>
    intro st
    obtain ⟨d, res⟩ := o
    cases res with
    | ok ds =>
      rw [collectLoop]
      simp only []
      rw [ih]
      simp [okEntries, List.filterMap_cons, Nat.add_assoc]
    | error e =>
      rw [collectLoop]
      simp only []
      rw [ih]
      simp [okEntries, List.filterMap_cons]

end Worker

namespace Worker

/-- Claim C2 counterexample: with one domain succeeding and one domain
whose partition raises, the aggregate contains no entry at all for the
failing domain and no failure counts from it - only a log line is
produced - contradicting that the failing domain yields a failure entry
in the aggregate stats. -/
theorem domains_failure_entry_counterexample :
    collectDomainResults
        [("a.com", Except.ok ⟨1, 1, 0, 0⟩),
         ("b.com", Except.error "database connection lost")] =
      ⟨1, 1, 0, 0, [("a.com", ⟨1, 1, 0, 0⟩)]⟩ ∧
    (collectDomainResults
        [("a.com", Except.ok ⟨1, 1, 0, 0⟩),
         ("b.com", Except.error "database connection lost")]).byDomain.find?
      (fun e => e.1 == "b.com") = none := by
  constructor
  · decide
  · decide

/-- Claim C2 (amended): an unhandled exception raised while processing one
domain partition does not abort the other partitions - every domain whose
partition completes contributes its statistics to the aggregate - but the
failing domain yields no entry in the aggregate stats: the collection loop
only logs the exception and continues. -/
theorem domains_failure_isolation (outcomes : List (String × Except String DomainStats)) :
    (collectDomainResults outcomes).byDomain = okEntries outcomes ∧
    (collectDomainResults outcomes).total =
      ((okEntries outcomes).map (fun e => e.2.total)).sum ∧
    (collectDomainResults outcomes).success =
      ((okEntries outcomes).map (fun e => e.2.success)).sum ∧
    (collectDomainResults outcomes).failed =
      ((okEntries outcomes).map (fun e => e.2.failed)).sum ∧
    (collectDomainResults outcomes).skipped =
      ((okEntries outcomes).map (fun e => e.2.skipped)).sum := by
  unfold collectDomainResults
  rw [collectLoop_spec]
  simp [statsInit]

/-- The per-link loop adds exactly one success or one failure per link to
its counters. -/
theorem processDomainLoop_counts (aiProc : AIProc) (maxR : Nat) :
    ∀ (links : List Store.LinkRec) (succ fail : Nat) (db : Store.DBState),
      (processDomainLoop aiProc maxR links succ fail db).1.1 +
        (processDomainLoop aiProc maxR links succ fail db).1.2 =
        succ + fail + links.length := by
  intro links
  induction links with
  | nil => intro succ fail db; simp [processDomainLoop]
  | cons link rest ih =>
    intro succ fail db
    rw [processDomainLoop]
    split
    · rw [ih]
      simp only [List.length_cons]
      omega
    · rw [ih]
      simp only [List.length_cons]
      omega

/-- Claim C10: for every domain partition the returned stats satisfy
success + failed + skipped = total with total the number of links and
skipped always zero - each link increments exactly one of the two live
counters - and the aggregate counters equal the componentwise sums over
the per-domain entries of partitions that completed without an unhandled
exception. -/
theorem domain_stats_conserved :
    (∀ (aiProc : AIProc) (maxR : Nat) (links : List Store.LinkRec) (db : Store.DBState),
      (processDomain aiProc maxR links db).1.success +
          (processDomain aiProc maxR links db).1.failed +
          (processDomain aiProc maxR links db).1.skipped =
        (processDomain aiProc maxR links db).1.total ∧
      (processDomain aiProc maxR links db).1.total = links.length ∧
      (processDomain aiProc maxR links db).1.skipped = 0) ∧
    (∀ outcomes : List (String × Except String DomainStats),
      (collectDomainResults outcomes).total =
        ((okEntries outcomes).map (fun e => e.2.total)).sum ∧
      (collectDomainResults outcomes).success =
        ((okEntries outcomes).map (fun e => e.2.success)).sum ∧
      (collectDomainResults outcomes).failed =
        ((okEntries outcomes).map (fun e => e.2.failed)).sum ∧
      (collectDomainResults outcomes).skipped =
        ((okEntries outcomes).map (fun e => e.2.skipped)).sum) := by
  constructor
  · intro aiProc maxR links db
    refine ⟨?_, rfl, rfl⟩
    show (processDomainLoop aiProc maxR links 0 0 db).1.1 +
        (processDomainLoop aiProc maxR links 0 0 db).1.2 + 0 = links.length
    rw [processDomainLoop_counts]
    omega
  · intro outcomes
    unfold collectDomainResults
    rw [collectLoop_spec]
    simp [statsInit]

end Worker

namespace Worker

open Store

/-- Claim C1 (code bug, evaluated at the failing input): with a content
processor that fails on every attempt the worker makes exactly MAX_RETRIES
processor calls in both failure modes, but only the exception mode persists
the failure.  A processor that always raises leaves the link failed with
the error message stored; a processor that always returns an unsuccessful
structured result leaves the retry loop with no store write at all, so the
link stays in processing with no error message persisted, although the run
still counts it as failed in the statistics. -/
theorem retry_exhaustion_divergence :
    let link : LinkRec := ⟨1, "http://a.com/x", "h1", "demo", "pending", none, false⟩
    let db0 : DBState := ⟨[link], [], [], 2, []⟩
    let procRet : AIProc :=
      some (fun _ _ => .returned (some ⟨false, none, none, none, none, some "boom"⟩))
    let procRaise : AIProc := some (fun _ _ => .raised "boom")
    let dbP := update_link_status db0 1 "processing" none
    (processSingleLink procRet MAX_RETRIES link dbP).calls = MAX_RETRIES ∧
    (processSingleLink procRet MAX_RETRIES link dbP).success = false ∧
    (processSingleLink procRet MAX_RETRIES link dbP).db = dbP ∧
    ((processDomain procRet MAX_RETRIES [link] db0).2.links.map
      (fun l => (l.status, l.errorMessage))) = [("processing", none)] ∧
    (processDomain procRet MAX_RETRIES [link] db0).1.failed = 1 ∧
    (processSingleLink procRaise MAX_RETRIES link dbP).calls = MAX_RETRIES ∧
    ((processDomain procRaise MAX_RETRIES [link] db0).2.links.map
      (fun l => (l.status, l.errorMessage))) = [("failed", some "boom")] := by
  decide

end Worker

namespace Search

open Store

/-- Claim C9: when the Discovery Client reports a failure (returns None),
run_task on a present and active task returns a failure result and leaves
the store unchanged: no link is registered and the task run statistics
(last_run, total_runs, total_links_found) are not updated. -/
theorem discovery_failure_no_mutation (h : String → String)
    (worker : Option Worker.AIProc) (maxR : Nat) (db : DBState)
    (taskName : String) (t : TaskRec)
    (hfind : get_query_task db taskName = some t)
    (hact : t.isActive = true) :
    run_task h none worker maxR taskName db =
      (⟨false, some "Search failed", taskName, 0, 0, 0, 0, [], none⟩, db) := by
  unfold run_task
  rw [hfind]
  simp [hact, execute_search]

/-- Witness for claim C9 on a store holding one active task named demo. -/
theorem discovery_failure_no_mutation_witness :
    get_query_task (create_query_task dbInit "demo" "find news") "demo" =
      some ⟨"demo", "find news", true, 0, 0, false⟩ ∧
    run_task (fun s => s) none (none : Option Worker.AIProc) 2 "demo"
        (create_query_task dbInit "demo" "find news") =
      (⟨false, some "Search failed", "demo", 0, 0, 0, 0, [], none⟩,
        create_query_task dbInit "demo" "find news") :=
  ⟨by decide,
    discovery_failure_no_mutation (fun s => s) none 2
      (create_query_task dbInit "demo" "find news") "demo"
      ⟨"demo", "find news", true, 0, 0, false⟩ (by decide) rfl⟩

end Search

namespace Search

open Store

/-- Claim C3: registering the same raw URL twice - including variants that
differ only by tracking query parameters or a leading www. label, that is,
any two valid raw URLs with equal normalizations - yields exactly one
stored link: the first registration inserts a new link in pending status
and returns its id (reported in the new-links list), the second is
classified a duplicate and not a new link, and a further direct
registration attempt at the store level returns no id and leaves the store
unchanged. -/
theorem register_twice_dedup (h : String → String) (u1 u2 : String)
    (hv1 : UrlNorm.is_valid_url u1 = true) (hv2 : UrlNorm.is_valid_url u2 = true)
    (hnorm : UrlNorm.normalize_url u1 = UrlNorm.normalize_url u2) :
    (process_urls h [u1, u2] "demo" dbInit).1.newLinks = 1 ∧
    (process_urls h [u1, u2] "demo" dbInit).1.duplicates = 1 ∧
    (process_urls h [u1, u2] "demo" dbInit).1.invalid = 0 ∧
    (process_urls h [u1, u2] "demo" dbInit).1.urls =
      [⟨1, UrlNorm.normalize_url u1, u1⟩] ∧
    (process_urls h [u1, u2] "demo" dbInit).2.links.map
      (fun l => (l.id, l.url, l.status)) =
      [(1, UrlNorm.normalize_url u1, "pending")] ∧
    insert_news_link (process_urls h [u1, u2] "demo" dbInit).2
        (UrlNorm.normalize_url u2) (h (UrlNorm.normalize_url u2)) "demo" =
      (none, (process_urls h [u1, u2] "demo" dbInit).2) := by
  have e2 : UrlNorm.normalize_url u2 = UrlNorm.normalize_url u1 := hnorm.symm
  simp [process_urls, processUrlsLoop, hv1, hv2, e2, url_exists,
    insert_news_link, dbInit]

/-- Witness for claim C3: the same article URL once with a www. prefix and
a tracking parameter and once bare, with the identity function in place of
the hash. -/
theorem register_twice_dedup_witness :
    UrlNorm.is_valid_url "http://www.a.com/1?utm_source=x" = true ∧
    UrlNorm.is_valid_url "http://a.com/1" = true ∧
    UrlNorm.normalize_url "http://www.a.com/1?utm_source=x" =
      UrlNorm.normalize_url "http://a.com/1" ∧
    (process_urls (fun s => s) ["http://www.a.com/1?utm_source=x", "http://a.com/1"]
        "demo" dbInit).1.newLinks = 1 ∧
    (process_urls (fun s => s) ["http://www.a.com/1?utm_source=x", "http://a.com/1"]
        "demo" dbInit).1.duplicates = 1 :=
  ⟨by decide, by decide, by decide,
    (register_twice_dedup (fun s => s) "http://www.a.com/1?utm_source=x" "http://a.com/1"
      (by decide) (by decide) (by decide)).1,
    (register_twice_dedup (fun s => s) "http://www.a.com/1?utm_source=x" "http://a.com/1"
      (by decide) (by decide) (by decide)).2.1⟩

end Search

namespace Search

open Store

/-- Claim C6: running task demo against a Discovery Client returning the
list http://a.com/1, http://a.com/1?utm_source=x, http://b.com/2 and
not a url, on an empty link store, registers exactly two new links
(http://a.com/1 and http://b.com/2), counts one duplicate and one invalid,
and reports total_found four; stated for every hash function that
separates the two normalized URLs, as the SHA-256 digest does. -/
theorem demo_task_scenario (h : String → String)
    (hne : (h "http://a.com/1" == h "http://b.com/2") = false) :
    (run_task h (some ["http://a.com/1", "http://a.com/1?utm_source=x",
        "http://b.com/2", "not a url"]) none 2 "demo"
        (create_query_task dbInit "demo" "find news")).1.success = true ∧
    (run_task h (some ["http://a.com/1", "http://a.com/1?utm_source=x",
        "http://b.com/2", "not a url"]) none 2 "demo"
        (create_query_task dbInit "demo" "find news")).1.totalFound = 4 ∧
    (run_task h (some ["http://a.com/1", "http://a.com/1?utm_source=x",
        "http://b.com/2", "not a url"]) none 2 "demo"
        (create_query_task dbInit "demo" "find news")).1.newLinks = 2 ∧
    (run_task h (some ["http://a.com/1", "http://a.com/1?utm_source=x",
        "http://b.com/2", "not a url"]) none 2 "demo"
        (create_query_task dbInit "demo" "find news")).1.duplicates = 1 ∧
    (run_task h (some ["http://a.com/1", "http://a.com/1?utm_source=x",
        "http://b.com/2", "not a url"]) none 2 "demo"
        (create_query_task dbInit "demo" "find news")).1.invalid = 1 ∧
    (run_task h (some ["http://a.com/1", "http://a.com/1?utm_source=x",
        "http://b.com/2", "not a url"]) none 2 "demo"
        (create_query_task dbInit "demo" "find news")).2.links.map
      (fun l => (l.id, l.url, l.status)) =
      [(1, "http://a.com/1", "pending"), (2, "http://b.com/2", "pending")] ∧
    (run_task h (some ["http://a.com/1", "http://a.com/1?utm_source=x",
        "http://b.com/2", "not a url"]) none 2 "demo"
        (create_query_task dbInit "demo" "find news")).2.tasks =
      [⟨"demo", "find news", true, 1, 2, true⟩] := by
  have hn1 : UrlNorm.normalize_url "http://a.com/1" = "http://a.com/1" := by decide
  have hn2 : UrlNorm.normalize_url "http://a.com/1?utm_source=x" = "http://a.com/1" := by
    decide
  have hn3 : UrlNorm.normalize_url "http://b.com/2" = "http://b.com/2" := by decide
  have hv1 : UrlNorm.is_valid_url "http://a.com/1" = true := by decide
  have hv2 : UrlNorm.is_valid_url "http://a.com/1?utm_source=x" = true := by decide
  have hv3 : UrlNorm.is_valid_url "http://b.com/2" = true := by decide
  have hv4 : UrlNorm.is_valid_url "not a url" = false := by decide
  simp [run_task, get_query_task, create_query_task, dbInit, execute_search,
    process_urls, processUrlsLoop, url_exists, insert_news_link,
    update_task_run_stats, hn1, hn2, hn3, hv1, hv2, hv3, hv4, hne]

/-- Witness for claim C6 with the identity function in place of the
hash. -/
theorem demo_task_scenario_witness :
    (("http://a.com/1" == "http://b.com/2") = false) ∧
    (run_task (fun s => s) (some ["http://a.com/1", "http://a.com/1?utm_source=x",
        "http://b.com/2", "not a url"]) none 2 "demo"
        (create_query_task dbInit "demo" "find news")).1.newLinks = 2 :=
  ⟨by decide, (demo_task_scenario (fun s => s) (by decide)).2.2.1⟩

end Search

namespace Traces

open Store Worker Search

/-- Appending one write to a write list stays good exactly when the list
was good and the new write is allowed against the last status. -/
theorem goodWrites_snoc (b : String) :
    ∀ (ws : List String) (p : String),
      goodWrites p (ws ++ [b]) = (goodWrites p ws && allowedPair (ws.getLastD p) b) := by
  intro ws
  induction ws with
  | nil => intro p; simp [goodWrites]
  | cons a rest ih =>
    intro p
    simp only [List.cons_append, goodWrites, List.append_eq, ih a, List.getLastD_cons, Bool.and_assoc]

/-- Writes recorded for an id after appending one log entry. -/
theorem writesIn_append (log : List (Nat × String)) (i : Nat) (s : String) (id : Nat) :
    writesIn (log ++ [(i, s)]) id =
      if i == id then writesIn log id ++ [s] else writesIn log id := by
  by_cases hc : (i == id) = true <;>
    simp [writesIn, List.filter_append, List.filter_cons, hc]

/-- update_link_status appends exactly one entry to the status log. -/
theorem statusLog_update (db : DBState) (i : Nat) (s : String) (m : Option String) :
    (update_link_status db i s m).statusLog = db.statusLog ++ [(i, s)] := rfl

/-- save_processed_content does not touch the status log. -/
theorem statusLog_save (db : DBState) (i : Nat) (t c tc md : Option String) :
    (save_processed_content db i t c tc md).statusLog = db.statusLog := by
  unfold save_processed_content
  split <;> rfl

/-- insert_news_link does not touch the status log. -/
theorem statusLog_insert (db : DBState) (u hs tk : String) :
    (insert_news_link db u hs tk).2.statusLog = db.statusLog := by
  unfold insert_news_link
  split <;> rfl

/-- update_task_run_stats does not touch the status log. -/
theorem statusLog_taskStats (db : DBState) (tk : String) (n : Nat) :
    (update_task_run_stats db tk n).statusLog = db.statusLog := rfl

/-- create_query_task does not touch the status log. -/
theorem statusLog_createTask (db : DBState) (tk pt : String) :
    (create_query_task db tk pt).statusLog = db.statusLog := rfl

/-- The good-log invariant depends only on the status log. -/
theorem goodLog_of_statusLog_eq (a b : DBState) (he : b.statusLog = a.statusLog)
    (hg : GoodLog a) : GoodLog b := by
  intro id
  rw [GoodLog] at hg
  rw [he]
  exact hg id

/-- Writing processing preserves the good-log invariant. -/
theorem goodLog_update_processing (db : DBState) (i : Nat) (m : Option String)
    (hg : GoodLog db) : GoodLog (update_link_status db i "processing" m) := by
  intro id
  rw [statusLog_update, writesIn_append]
  split
  · rw [goodWrites_snoc]
    simp [allowedPair, hg id]
  · exact hg id

/-- The last status after an update. -/
theorem lastStatusOf_update (db : DBState) (i : Nat) (s : String) (m : Option String)
    (id : Nat) :
    lastStatusOf (update_link_status db i s m) id =
      if i == id then s else lastStatusOf db id := by
  unfold lastStatusOf
  rw [statusLog_update, writesIn_append]
  split
  · rw [List.getLastD_concat]
  · rfl

/-- The last status is determined by the status log. -/
theorem lastStatusOf_of_statusLog_eq (a b : DBState) (he : b.statusLog = a.statusLog)
    (id : Nat) : lastStatusOf b id = lastStatusOf a id := by
  unfold lastStatusOf
  rw [he]

/-- Writing completed or failed from processing preserves the good-log
invariant. -/
theorem goodLog_update_terminal (db : DBState) (i : Nat) (s : String)
    (m : Option String) (hg : GoodLog db) (hl : lastStatusOf db i = "processing")
    (hs : s = "completed" ∨ s = "failed") : GoodLog (update_link_status db i s m) := by
  intro id
  rw [statusLog_update, writesIn_append]
  split
  · rename _ => hii
    rw [goodWrites_snoc]
    have hlast : (writesIn db.statusLog id).getLastD "pending" = "processing" := by
      have : i = id := by simpa using hii
      subst this
      exact hl
    rw [hlast]
    rcases hs with hs | hs <;> subst hs <;> simp [allowedPair, hg id]
  · exact hg id

end Traces

namespace Traces

open Store Worker Search

/-- The retry loop preserves the good-log invariant when entered with the
link in processing: its only writes are completed or failed for that link,
both made while the link is still in processing. -/
theorem processAttempts_goodLog (aiProc : AIProc) (maxR linkId : Nat) :
    ∀ (remaining attempt : Nat) (db : DBState), GoodLog db →
      lastStatusOf db linkId = "processing" →
      GoodLog (processAttempts aiProc maxR linkId remaining attempt db).db := by
  intro remaining
  induction remaining with
  | zero => intro attempt db hg hl; exact hg
  | succ rem ih =>
    intro attempt db hg hl
    cases aiProc with
    | none =>
      simp only [processAttempts]
      exact goodLog_update_terminal db linkId "completed" none hg hl (Or.inl rfl)
    | some proc =>
      cases hpo : proc linkId attempt with
      | returned r =>
        cases r with
        | some res =>
          by_cases hs : res.success = true
          · simp only [processAttempts, hpo, hs, if_true]
            apply goodLog_update_terminal _ linkId "completed" none
            · exact goodLog_of_statusLog_eq db _ (statusLog_save db linkId _ _ _ _) hg
            · rw [lastStatusOf_of_statusLog_eq db _ (statusLog_save db linkId _ _ _ _)]
              exact hl
            · exact Or.inl rfl
          · simp only [processAttempts, hpo, hs, if_false]
            exact ih (attempt + 1) db hg hl
        | none =>
          simp only [processAttempts, hpo]
          exact ih (attempt + 1) db hg hl
      | raised e =>
        simp only [processAttempts, hpo]
        by_cases hm : (attempt == maxR) = true
        · simp only [hm, if_true]
          exact goodLog_update_terminal db linkId "failed" (some e) hg hl (Or.inr rfl)
        · simp only [hm, if_false]
          exact ih (attempt + 1) db hg hl

/-- The per-link loop preserves the good-log invariant: each link is set to
processing and then only terminal writes from processing follow. -/
theorem processDomainLoop_goodLog (aiProc : AIProc) (maxR : Nat) :
    ∀ (links : List LinkRec) (succ fail : Nat) (db : DBState), GoodLog db →
      GoodLog (processDomainLoop aiProc maxR links succ fail db).2 := by
  intro links
  induction links with
  | nil => intro succ fail db hg; exact hg
  | cons link rest ih =>
    intro succ fail db hg
    rw [processDomainLoop]
    have hg1 : GoodLog (update_link_status db link.id "processing" none) :=
      goodLog_update_processing db link.id none hg
    have hl1 : lastStatusOf (update_link_status db link.id "processing" none) link.id =
        "processing" := by
      rw [lastStatusOf_update]
      simp
    have hg2 : GoodLog (processSingleLink aiProc maxR link
        (update_link_status db link.id "processing" none)).db :=
      processAttempts_goodLog aiProc maxR link.id maxR 1 _ hg1 hl1
    split
    · exact ih _ _ _ hg2
    · exact ih _ _ _ hg2

/-- The domain loop preserves the good-log invariant. -/
theorem processDomainsLoop_goodLog (aiProc : AIProc) (maxR : Nat) :
    ∀ (groups : List (String × List LinkRec))
      (acc : List (String × Except String DomainStats)) (db : DBState), GoodLog db →
      GoodLog (processDomainsLoop aiProc maxR groups acc db).2 := by
  intro groups
  induction groups with
  | nil => intro acc db hg; exact hg
  | cons g rest ih =>
    intro acc db hg
    rw [processDomainsLoop]
    exact ih _ _ (processDomainLoop_goodLog aiProc maxR g.2 0 0 db hg)

/-- processDomains preserves the good-log invariant. -/
theorem processDomains_goodLog (aiProc : AIProc) (maxR : Nat)
    (groups : List (String × List LinkRec)) (db : DBState) (hg : GoodLog db) :
    GoodLog (processDomains aiProc maxR groups db).2 :=
  processDomainsLoop_goodLog aiProc maxR groups [] db hg

/-- process_pending_links preserves the good-log invariant. -/
theorem process_pending_links_goodLog (aiProc : AIProc) (maxR limit : Nat)
    (db : DBState) (hg : GoodLog db) :
    GoodLog (process_pending_links aiProc maxR limit db).2 := by
  rw [process_pending_links]
  by_cases hpe : (get_pending_links db limit).isEmpty = true
  · simp only [hpe, if_true]
    exact hg
  · simp only [hpe, if_false]
    exact processDomains_goodLog aiProc maxR _ db hg

/-- process_specific_links preserves the good-log invariant. -/
theorem process_specific_links_goodLog (aiProc : AIProc) (maxR : Nat)
    (ids : List Nat) (db : DBState) (hg : GoodLog db) :
    GoodLog (process_specific_links aiProc maxR ids db).2 := by
  rw [process_specific_links]
  by_cases hpe : (get_links_by_ids db ids).isEmpty = true
  · simp only [hpe, if_true]
    exact hg
  · simp only [hpe, if_false]
    exact processDomains_goodLog aiProc maxR _ db hg

/-- The registration loop never writes a status: the log is unchanged. -/
theorem processUrlsLoop_statusLog (h : String → String) (tk : String) :
    ∀ (urls : List String) (acc : ProcessUrlsResult) (db : DBState),
      (processUrlsLoop h tk urls acc db).2.statusLog = db.statusLog := by
  intro urls
  induction urls with
  | nil => intro acc db; rfl
  | cons url rest ih =>
    intro acc db
    rw [processUrlsLoop]
    by_cases hv : (!UrlNorm.is_valid_url url) = true
    · simp only [hv, if_true]
      exact ih _ _
    · simp only [hv, if_false]
      by_cases he : url_exists db (h (UrlNorm.normalize_url url)) = true
      · simp only [he, if_true]
        exact ih _ _
      · simp only [he, if_false]
        cases hins : (insert_news_link db (UrlNorm.normalize_url url)
            (h (UrlNorm.normalize_url url)) tk).1 with
        | some linkId =>
          simp only [hins, Bool.false_eq_true, if_false]
          rw [ih]
          exact statusLog_insert db (UrlNorm.normalize_url url)
            (h (UrlNorm.normalize_url url)) tk
        | none =>
          simp only [hins, Bool.false_eq_true, if_false]
          rw [ih]
          exact statusLog_insert db (UrlNorm.normalize_url url)
            (h (UrlNorm.normalize_url url)) tk

/-- execute_search preserves the good-log invariant. -/
theorem execute_search_goodLog (h : String → String)
    (searchRes : Option (List String)) (worker : Option AIProc) (maxR : Nat)
    (prompt taskName : String) (db : DBState) (hg : GoodLog db) :
    GoodLog (execute_search h searchRes worker maxR prompt taskName db).2 := by
  unfold execute_search
  cases searchRes with
  | none => exact hg
  | some urls =>
    have hg1 : GoodLog (update_task_run_stats
        (process_urls h urls taskName db).2 taskName
        (process_urls h urls taskName db).1.newLinks) := by
      apply goodLog_of_statusLog_eq db
      · rw [statusLog_taskStats]
        exact processUrlsLoop_statusLog h taskName urls _ db
      · exact hg
    cases worker with
    | none => exact hg1
    | some aiProc =>
      simp only []
      split
      · exact process_specific_links_goodLog aiProc maxR _ _ hg1
      · exact hg1

/-- run_task preserves the good-log invariant. -/
theorem run_task_goodLog (h : String → String) (searchRes : Option (List String))
    (worker : Option AIProc) (maxR : Nat) (taskName : String) (db : DBState)
    (hg : GoodLog db) :
    GoodLog (run_task h searchRes worker maxR taskName db).2 := by
  unfold run_task
  cases get_query_task db taskName with
  | none => exact hg
  | some t =>
    simp only []
    split
    · exact hg
    · exact execute_search_goodLog h searchRes worker maxR _ taskName db hg

/-- Every core operation preserves the good-log invariant. -/
theorem applyOp_goodLog (op : CoreOp) (db : DBState) (hg : GoodLog db) :
    GoodLog (applyOp op db) := by
  cases op with
  | runTask h searchRes worker maxR taskName =>
    exact run_task_goodLog h searchRes worker maxR taskName db hg
  | processPending aiProc maxR limit =>
    exact process_pending_links_goodLog aiProc maxR limit db hg
  | processSpecific aiProc maxR ids =>
    exact process_specific_links_goodLog aiProc maxR ids db hg
  | createTask taskName promptTemplate =>
    exact goodLog_of_statusLog_eq db _ (statusLog_createTask db _ _) hg

/-- Every reachable store state satisfies the good-log invariant. -/
theorem reachable_goodLog (db : DBState) (hr : Reachable db) : GoodLog db := by
  induction hr with
  | refl => intro id; rfl
  | tail hab hbc ih =>
    obtain ⟨op, hop⟩ := hbc
    rw [hop]
    exact applyOp_goodLog op _ ih

end Traces

namespace Traces

open Store

/-- Claim C4 counterexample: a reachable trace in which a link moves
completed to processing.  The task demo discovers one link; a first
process_specific_links run completes it; a second run on the same id takes
it back to processing before completing it again, so the status history
pending, processing, completed, processing, completed violates the strict
chain pending to processing to terminal. -/
theorem status_chain_counterexample :
    Reachable (applyOp (.processSpecific none 2 [1])
      (applyOp (.processSpecific none 2 [1])
        (applyOp (.runTask (fun s => s) (some ["http://a.com/1"]) none 2 "demo")
          (applyOp (.createTask "demo" "find news") dbInit)))) ∧
    chainHist (histOf (applyOp (.processSpecific none 2 [1])
      (applyOp (.processSpecific none 2 [1])
        (applyOp (.runTask (fun s => s) (some ["http://a.com/1"]) none 2 "demo")
          (applyOp (.createTask "demo" "find news") dbInit)))) 1) = false := by
  constructor
  · exact Relation.ReflTransGen.tail
      (Relation.ReflTransGen.tail
        (Relation.ReflTransGen.tail
          (Relation.ReflTransGen.tail Relation.ReflTransGen.refl
            ⟨.createTask "demo" "find news", rfl⟩)
          ⟨.runTask (fun s => s) (some ["http://a.com/1"]) none 2 "demo", rfl⟩)
        ⟨.processSpecific none 2 [1], rfl⟩)
      ⟨.processSpecific none 2 [1], rfl⟩
  · decide

/-- Claim C4 (amended): in every store state reachable by core operations,
every link status history - pending at creation followed by the logged
writes - satisfies: no write is pending, so no sequence of core operations
returns a link to pending; and every write of completed or failed happens
while the link is in processing, so a link status is a single value at any
time, never both completed and failed.  Writes of processing may however
re-enter from completed or failed when process_specific_links is re-run on
an already terminal link, so the strict chain of the original claim does
not hold. -/
theorem status_history_sound (db : DBState) (hr : Reachable db) (id : Nat) :
    goodHist (histOf db id) = true :=
  reachable_goodLog db hr id

/-- Witness for the amended claim C4 on a three-operation trace. -/
theorem status_history_sound_witness :
    goodHist (histOf (applyOp (.processSpecific none 2 [1])
      (applyOp (.runTask (fun s => s) (some ["http://a.com/1"]) none 2 "demo")
        (applyOp (.createTask "demo" "find news") dbInit))) 1) = true :=
  status_history_sound _
    (Relation.ReflTransGen.tail
      (Relation.ReflTransGen.tail
        (Relation.ReflTransGen.tail Relation.ReflTransGen.refl
          ⟨.createTask "demo" "find news", rfl⟩)
        ⟨.runTask (fun s => s) (some ["http://a.com/1"]) none 2 "demo", rfl⟩)
      ⟨.processSpecific none 2 [1], rfl⟩) 1

end Traces

namespace UrlNorm

/-- Claim C8 counterexample: for the URL http://e.com/p?a=1&b=2&a=3 the
surviving pairs in input order are a=1, b=2, a=3, but the normalized URL
carries the query a=1&a=3&b=2: parse_qs groups repeated names, so the
relative order of b=2 and a=3 is not preserved. -/
theorem query_order_counterexample :
    (parseQsl (pyUrlparse "http://e.com/p?a=1&b=2&a=3".data).query).filter
        (fun kv => !trackingParams.contains kv.1) =
      [("a".data, "1".data), ("b".data, "2".data), ("a".data, "3".data)] ∧
    (pyUrlparse (normalize_url "http://e.com/p?a=1&b=2&a=3").data).query =
      "a=1&a=3&b=2".data ∧
    (pyUrlparse (normalize_url "http://e.com/p?a=1&b=2&a=3").data).query ≠
      serializeInOrder
        ((parseQsl (pyUrlparse "http://e.com/p?a=1&b=2&a=3".data).query).filter
          (fun kv => !trackingParams.contains kv.1)) := by
  refine ⟨by decide, by decide, by decide⟩

end UrlNorm

namespace UrlNorm

/-- Filtering a dictionary by key commutes with adding one pair. -/
theorem filter_addToDict (p : PyStr → Bool) (n v : PyStr) :
    ∀ d : List (PyStr × List PyStr),
      (addToDict d n v).filter (fun kv => p kv.1) =
        if p n then addToDict (d.filter (fun kv => p kv.1)) n v
        else d.filter (fun kv => p kv.1) := by
  intro d
  induction d with
  | nil =>
    by_cases hp : p n = true <;> simp [addToDict, List.filter, hp]
  | cons kv rest ih =>
    rw [addToDict]
    by_cases hk : (kv.1 == n) = true
    · have hkeq : kv.1 = n := by simpa using hk
      subst hkeq
      by_cases hp : p kv.1 = true <;>
        simp [List.filter_cons, hp, hk, addToDict]
    · by_cases hp : p kv.1 = true <;> by_cases hpn : p n = true <;>
        simp [List.filter_cons, hp, hpn, hk, addToDict, ih]

/-- Filtering by key commutes with grouping a pair list into a
dictionary. -/
theorem foldl_addToDict_filter (p : PyStr → Bool) :
    ∀ (ps : List (PyStr × PyStr)) (acc : List (PyStr × List PyStr)),
      (ps.foldl (fun d q => addToDict d q.1 q.2) acc).filter (fun kv => p kv.1) =
        (ps.filter (fun q => p q.1)).foldl (fun d q => addToDict d q.1 q.2)
          (acc.filter (fun kv => p kv.1)) := by
  intro ps
  induction ps with
  | nil => intro acc; rfl
  | cons q rest ih =>
    intro acc
    rw [List.foldl_cons, List.filter_cons, ih, filter_addToDict]
    by_cases hp : p q.1 = true <;> simp [hp]

/-- Adding an unbound name appends its entry at the end. -/
theorem addToDict_notMem (n v : PyStr) :
    ∀ d : List (PyStr × List PyStr), hasKey d n = false →
      addToDict d n v = d ++ [(n, [v])] := by
  intro d
  induction d with
  | nil => intro _; rfl
  | cons kv rest ih =>
    intro hnk
    simp only [hasKey] at hnk
    simp only [List.any_cons, Bool.or_eq_false_iff] at hnk
    rw [addToDict, if_neg (by simp [hnk.1]), ih]
    · rfl
    · exact hnk.2

/-- Grouping a pair list with pairwise distinct names that are all unbound
in the accumulator appends one singleton entry per pair, in order. -/
theorem foldl_addToDict_nodup :
    ∀ (ps : List (PyStr × PyStr)) (acc : List (PyStr × List PyStr)),
      (ps.map Prod.fst).Nodup → (∀ k ∈ ps.map Prod.fst, hasKey acc k = false) →
      ps.foldl (fun d q => addToDict d q.1 q.2) acc =
        acc ++ ps.map (fun q => (q.1, [q.2])) := by
  intro ps
  induction ps with
  | nil => intro acc _ _; simp
  | cons q rest ih =>
    intro acc hnd hk
    rw [List.foldl_cons]
    rw [addToDict_notMem q.1 q.2 acc (hk q.1 (by simp))]
    rw [List.map_cons, List.nodup_cons] at hnd
    rw [ih (acc ++ [(q.1, [q.2])]) hnd.2]
    · simp
    · intro k hkmem
      simp only [hasKey, List.any_append, Bool.or_eq_false_iff]
      constructor
      · exact hk k (by simp [hkmem])
      · have hne : q.1 ≠ k := fun he => hnd.1 (he ▸ hkmem)
        simp [hne]

/-- Serializing a dictionary of singleton values is the in-order
serialization of the pairs. -/
theorem urlencode_singletons :
    ∀ ps : List (PyStr × PyStr),
      pyUrlencodeDoseq (ps.map (fun q => (q.1, [q.2]))) = serializeInOrder ps := by
  intro ps
  unfold pyUrlencodeDoseq serializeInOrder
  congr 1
  induction ps with
  | nil => rfl
  | cons q rest ih => simp only [List.map_cons, List.flatten_cons, ih]; rfl

/-- Claim C8 (amended): normalize re-serializes the surviving query
parameters grouped by name in order of first appearance, each name with
its values in their original relative order; whenever no surviving name
repeats, this coincides with the original relative order of the surviving
pairs, as the claim states. -/
theorem query_params_order (q : PyStr)
    (hnd : (((parseQsl q).filter (fun kv => !trackingParams.contains kv.1)).map
      Prod.fst).Nodup) :
    pyUrlencodeDoseq ((parseQs q).filter (fun kv => !trackingParams.contains kv.1)) =
      serializeInOrder
        ((parseQsl q).filter (fun kv => !trackingParams.contains kv.1)) := by
  rw [parseQs]
  rw [foldl_addToDict_filter (fun n => !trackingParams.contains n) (parseQsl q) [],
    List.filter_nil]
  rw [foldl_addToDict_nodup _ [] hnd (fun k _ => rfl)]
  rw [List.nil_append]
  exact urlencode_singletons _

/-- Witness for the amended claim C8 on the query a=1&b=2 with distinct
surviving names. -/
theorem query_params_order_witness :
    (((parseQsl "a=1&b=2".data).filter
        (fun kv => !trackingParams.contains kv.1)).map Prod.fst).Nodup ∧
    pyUrlencodeDoseq ((parseQs "a=1&b=2".data).filter
        (fun kv => !trackingParams.contains kv.1)) =
      serializeInOrder ((parseQsl "a=1&b=2".data).filter
        (fun kv => !trackingParams.contains kv.1)) :=
  ⟨by decide, query_params_order "a=1&b=2".data (by decide)⟩

end UrlNorm
